import Mathlib

/-!
# logging-and-monitoring: the transaction service

A shallow embedding of `src/logging-and-monitoring/main.go` and
`transaction.go`, followed by theorems about the four HTTP handlers, the
response envelope and the request-logging middleware.

Modelling conventions.

* The package-level `storage` map and the default structured logger are the
  two pieces of mutable state; they are threaded explicitly as a `World`.
* A Go `map[int64]Transaction` is an association list with pairwise distinct
  keys (`AList`); `len`, index, assignment and `range` are `Storage.len`,
  `Storage.get`, `Storage.set` and `Storage.values`.
* `int`, `int64` fields are `Int`.  The only arithmetic of the program is
  `len(storage) + 1`, on a map length, which cannot reach `2 ^ 63`; the range
  check of `strconv.ParseInt` is modelled explicitly.
* Readings of the clock (`time.Now()`, `time.Since`) are parameters.
* The response writer follows `net/http`: `WriteHeader` checks the status
  code, 1xx codes are informational, and a 1xx, 204 or 304 status takes no
  body.  A panic of `WriteHeader` shows as a writer with no status and no
  body; the handlers pass only 200, 400 and 404 and never reach it.
* Library behaviour is modelled at its documented interface: the result of
  `json.Decode` on the body and of `URL.Query()` are fields of the request;
  `strconv.ParseBool` and `strconv.ParseInt` are transcribed from the Go
  standard library (a string is its list of characters; a character outside
  ASCII is a sequence of bytes none of which is a digit or a sign).
-/

namespace LoggingAndMonitoring

/-! ## Data model -/

/-- The `Transaction` struct of `transaction.go`. -/
structure Transaction where
  ID : Int
  UserID : Int
  Name : String
  Items : List String
  Amount : Int
  CreatedAt : Int
deriving DecidableEq, Repr

/-- A Go `map[int64]Transaction`. -/
abbrev Storage := AList (fun _ : Int => Transaction)

/-- Go `len(m)`. -/
def Storage.len (m : Storage) : Nat := m.entries.length

/-- Go `v, ok := m[k]`. -/
def Storage.get (m : Storage) (k : Int) : Option Transaction := m.lookup k

/-- Go `m[k] = v`. -/
def Storage.set (m : Storage) (k : Int) (v : Transaction) : Storage := m.insert k v

/-- The values visited by `for _, v := range m`, in the order of the
representation (Go leaves the order unspecified). -/
def Storage.values (m : Storage) : List Transaction := m.entries.map (fun e => e.2)

/-- The initial value of the package variable `storage` (main.go:14-37);
`boot` is the reading of `time.Now().Unix()` at program start. -/
def storage (boot : Int) : Storage :=
  Storage.set
    (Storage.set ∅ 1
      { ID := 1, UserID := 1, Name := "Buy iPhone 13",
        Items := ["iPhone 13", "Clear Case"],
        Amount := 10000000, CreatedAt := boot - 3600 })
    2
    { ID := 2, UserID := 0, Name := "Anonymous buy T-Shirts",
      Items := ["T-Shirt Bugs Bunny White Colour", "T-Shirt Tweety Sun Colour"],
      Amount := 200000, CreatedAt := boot - 1800 }

/-! ## Response envelope -/

/-- The dynamic values the handlers put into `Response.Data` (an
`interface{}` in Go); `null` is the nil interface. -/
inductive Data where
  | null
  | str (s : String)
  | trx (t : Transaction)
  | list (l : List Transaction)
deriving DecidableEq, Repr

/-- The `Response` struct (main.go:153-157). -/
structure Response where
  Ok : Bool
  Data : Data
  ErrorMessage : String
deriving DecidableEq, Repr

/-- What has been written to an `http.ResponseWriter`: the header map, the
informational (1xx) status lines sent, the final status once written, and the
values encoded to the body. -/
structure ResponseWriter where
  header : List (String × String)
  status : Option Nat
  body : List Response
  informational : List Nat := []
deriving DecidableEq, Repr

/-- A writer nothing has been written to. -/
def ResponseWriter.fresh : ResponseWriter := { header := [], status := none, body := [] }

/-- `w.Header().Set(key, value)`: replaces the values of `key`. -/
def ResponseWriter.headerSet (w : ResponseWriter) (key value : String) : ResponseWriter :=
  { w with header := (key, value) :: w.header.filter (fun kv => kv.1 ≠ key) }

/-- `bodyAllowedForStatus` of `net/http`: no body with a 1xx, 204 or 304
status. -/
def bodyAllowedForStatus (status : Nat) : Bool :=
  if 100 ≤ status ∧ status ≤ 199 then false
  else if status = 204 then false
  else if status = 304 then false
  else true

/-- `w.WriteHeader(code)` of `net/http`.  A call after the status has been
written is superfluous and changes nothing.  Otherwise a code below 100 or
above 999 panics (`checkWriteHeaderCode`), which is the result `none`; a 1xx
code other than 101 sends an informational status line and leaves the final
status open; any other code is written as the final status. -/
def ResponseWriter.WriteHeader (w : ResponseWriter) (code : Int) : Option ResponseWriter :=
  match w.status with
  | some _ => some w
  | none =>
    if code < 100 ∨ code > 999 then none
    else if 100 ≤ code ∧ code ≤ 199 ∧ code ≠ 101 then
      some { w with informational := w.informational ++ [code.toNat] }
    else some { w with status := some code.toNat }

/-- `json.NewEncoder(w).Encode(resp)`: one `Write` of the encoded value, which
first writes the status 200 if none was written, and then the body unless the
status allows none (the error `ErrBodyNotAllowed` is dropped by the callers). -/
def ResponseWriter.encode (w : ResponseWriter) (resp : Response) : ResponseWriter :=
  let status : Nat :=
    match w.status with
    | some code => code
    | none => 200
  let w1 := { w with status := some status }
  if bodyAllowedForStatus status then { w1 with body := w1.body ++ [resp] } else w1

/-- `http.StatusOK`. -/
def StatusOK : Int := 200

/-- `http.StatusBadRequest`. -/
def StatusBadRequest : Int := 400

/-- `http.StatusNotFound`. -/
def StatusNotFound : Int := 404

/-- `FailResponse` (main.go:159-169); `err` is `err.Error()`.  When
`WriteHeader` panics the call ends there, with only the header map set. -/
def FailResponse (w : ResponseWriter) (err : String) (errStatusCode : Int) : ResponseWriter :=
  let resp : Response := { Ok := false, Data := Data.null, ErrorMessage := err }
  let w := w.headerSet "Content-Type" "application/json"
  match w.WriteHeader errStatusCode with
  | none => w
  | some w => w.encode resp

/-- `SuccessResponse` (main.go:171-181). -/
def SuccessResponse (w : ResponseWriter) (data : Data) : ResponseWriter :=
  let resp : Response := { Ok := true, Data := data, ErrorMessage := "" }
  let w := w.headerSet "Content-Type" "application/json"
  match w.WriteHeader StatusOK with
  | none => w
  | some w => w.encode resp

/-! ## Logging -/

inductive Level where
  | Debug | Info | Warn | Error
deriving DecidableEq, Repr

/-- Attribute values passed to `slog`. -/
inductive AttrValue where
  | str (s : String)
  | int (i : Int)
  | trx (t : Transaction)
deriving DecidableEq, Repr

/-- The message of a log record: a fixed text, or
`fmt.Sprintf("request processing time: %v", d)` for a duration `d`. -/
inductive LogMsg where
  | text (s : String)
  | processingTime (d : Int)
deriving DecidableEq, Repr

/-- One record handed to the default logger. -/
structure LogRecord where
  level : Level
  msg : LogMsg
  attrs : List (String × AttrValue)
deriving DecidableEq, Repr

/-- The mutable state of the process: the `storage` map and the records
emitted so far to the default logger. -/
structure World where
  storage : Storage
  logs : List LogRecord

/-- `slog.Error`, `slog.Warn`, `slog.Info` on the default logger. -/
def World.slog (w : World) (level : Level) (msg : LogMsg)
    (attrs : List (String × AttrValue)) : World :=
  { w with logs := w.logs ++ [{ level := level, msg := msg, attrs := attrs }] }

/-! ## Requests -/

/-- The parts of an `*http.Request` the program reads.  `query` is
`r.URL.Query()` (each key with its values, in order), `pathValues` the
wildcard matches of the route, `payload` the outcome of
`json.NewDecoder(r.Body).Decode(&payload)`: the decoded value, or the text
of the error. -/
structure Request where
  method : String
  path : String
  rawQuery : String
  query : List (String × List String)
  pathValues : List (String × String)
  payload : Except String Transaction

/-- `url.Values.Get`: the first value of `key`, or `""`. -/
def urlValuesGet (v : List (String × List String)) (key : String) : String :=
  match v.lookup key with
  | some (x :: _) => x
  | _ => ""

/-- `r.PathValue(name)`: the match of the wildcard, or `""`. -/
def Request.PathValue (r : Request) (name : String) : String :=
  match r.pathValues.lookup name with
  | some x => x
  | none => ""

/-! ## strconv -/

/-- The two errors of package `strconv`: `ErrSyntax` and `ErrRange`. -/
inductive NumError where
  | ErrSyntax
  | ErrRange
deriving DecidableEq, Repr

instance instDecidableEqExcept {ε α : Type} [DecidableEq ε] [DecidableEq α] :
    DecidableEq (Except ε α)
  | Except.ok a, Except.ok b =>
    if h : a = b then isTrue (by rw [h]) else isFalse (fun h1 => h (Except.ok.inj h1))
  | Except.error a, Except.error b =>
    if h : a = b then isTrue (by rw [h]) else isFalse (fun h1 => h (Except.error.inj h1))
  | Except.ok _, Except.error _ => isFalse (fun h => by cases h)
  | Except.error _, Except.ok _ => isFalse (fun h => by cases h)

/-- `strconv.ParseBool`. -/
def ParseBool (str : String) : Except NumError Bool :=
  if str = "1" ∨ str = "t" ∨ str = "T" ∨ str = "true" ∨ str = "TRUE" ∨ str = "True" then
    Except.ok true
  else if str = "0" ∨ str = "f" ∨ str = "F" ∨ str = "false" ∨ str = "FALSE" ∨ str = "False" then
    Except.ok false
  else Except.error NumError.ErrSyntax

/-- The value `anonTrx` of `anonTrx, _ := strconv.ParseBool(...)`: the error
is dropped and the result is `false` with it. -/
def parseBoolValue (str : String) : Bool :=
  match ParseBool str with
  | Except.ok b => b
  | Except.error _ => false

/-- `maxUint64/10 + 1`: the smallest `n` with `n * 10 > maxUint64`. -/
def uintCutoff10 : Nat := (2 ^ 64 - 1) / 10 + 1

/-- The digit loop of `strconv.ParseUint(s, 10, 64)` with accumulator `n`: a
byte that is not a decimal digit is a syntax error, an overflow of
`n * 10` or of `n * 10 + d` a range error. -/
def parseUintLoop : List Char → Nat → Except NumError Nat
  | [], n => Except.ok n
  | c :: cs, n =>
    if '0' ≤ c ∧ c ≤ '9' then
      let d := c.toNat - '0'.toNat
      if n ≥ uintCutoff10 then Except.error NumError.ErrRange
      else
        let n10 := (n * 10) % 2 ^ 64
        let n1 := (n10 + d) % 2 ^ 64
        if n1 < n10 ∨ n1 > 2 ^ 64 - 1 then Except.error NumError.ErrRange
        else parseUintLoop cs n1
    else Except.error NumError.ErrSyntax

/-- `strconv.ParseUint(s, 10, 64)`. -/
def ParseUint (s : List Char) : Except NumError Nat :=
  match s with
  | [] => Except.error NumError.ErrSyntax
  | _ => parseUintLoop s 0

/-- `strconv.ParseInt(s, 10, 64)`: an optional sign, then `ParseUint`, then
the range check against `1 << 63`.  (On a range error of `ParseUint` the Go
code continues with `un = maxUint64`, which fails the range check.) -/
def ParseInt (s : String) : Except NumError Int :=
  match s.toList with
  | [] => Except.error NumError.ErrSyntax
  | c :: cs =>
    let neg := c = '-'
    let rest := if c = '+' ∨ c = '-' then cs else c :: cs
    match ParseUint rest with
    | Except.error e => Except.error e
    | Except.ok un =>
      let cutoff : Nat := 2 ^ 63
      if ¬ neg ∧ un ≥ cutoff then Except.error NumError.ErrRange
      else if neg ∧ un > cutoff then Except.error NumError.ErrRange
      else if neg then Except.ok (-(un : Int)) else Except.ok (un : Int)

/-! ## Handlers -/

/-- An `http.HandlerFunc`, with the state it reads and writes made explicit. -/
abbrev Handler := ResponseWriter → Request → World → ResponseWriter × World

/-- The four patterns registered on the router (main.go:66, 69, 77, 114);
which of them a request matches is decided by `http.ServeMux`. -/
inductive Route where
  | health
  | list
  | create
  | get
deriving DecidableEq, Repr

/-- `GET /health` (main.go:66-68). -/
def healthHandler : Handler := fun w _ st =>
  (SuccessResponse w (Data.str "Berry nice!"), st)

/-- `GET /transactions` (main.go:69-76): appends every value of the map to
an initially nil slice. -/
def listHandler : Handler := fun w _ st =>
  let list := st.storage.values.foldl (fun acc trx => acc ++ [trx]) []
  (SuccessResponse w (Data.list list), st)

/-- `POST /transactions` (main.go:77-113); `now` is the reading of
`time.Now().Unix()` on line 108.  A decode failure is logged with
`slog.Error` (line 87; the comment on line 86 says warn).  The length of a Go map is far below
`2 ^ 63 - 1`, so `currTotalTrx + 1` and its conversion to `int64` are exact. -/
def createHandler (now : Int) : Handler := fun w r st =>
  let currTotalTrx : Int := st.storage.len
  let newTrxID := currTotalTrx + 1
  match r.payload with
  | Except.error err =>
    let st := st.slog Level.Error (LogMsg.text "fail decode request body")
      [("error", AttrValue.str err)]
    (FailResponse w "fail decode request body" StatusBadRequest, st)
  | Except.ok payload =>
    let anonTrx := parseBoolValue (urlValuesGet r.query "anonymous")
    if !anonTrx && payload.UserID == 0 then
      let st := st.slog Level.Error (LogMsg.text "transaction has empty user ID")
        [("payload", AttrValue.trx payload)]
      (FailResponse w "must provide user ID" StatusBadRequest, st)
    else
      let newTrx : Transaction :=
        { ID := newTrxID
          UserID := payload.UserID
          Name := payload.Name
          Items := payload.Items
          Amount := payload.Amount
          CreatedAt := now }
      let st := { st with storage := st.storage.set newTrxID newTrx }
      (SuccessResponse w (Data.trx newTrx), st)

/-- `GET /transactions/{id}` (main.go:114-134). -/
def getByIdHandler : Handler := fun w r st =>
  let trxIdStr := r.PathValue "id"
  match ParseInt trxIdStr with
  | Except.error _ =>
    let st := st.slog Level.Error (LogMsg.text "invalid transaction id")
      [("transaction_id", AttrValue.str trxIdStr)]
    (FailResponse w "invalid transaction id" StatusBadRequest, st)
  | Except.ok trxId =>
    match st.storage.get trxId with
    | none =>
      let st := st.slog Level.Warn (LogMsg.text "transaction not found")
        [("transaction_id", AttrValue.int trxId)]
      (FailResponse w "transaction not found" StatusNotFound, st)
    | some trx => (SuccessResponse w (Data.trx trx), st)

/-- The router built by `getHandler` (main.go:63-136), applied to a request
that matches `route`. -/
def getHandler (now : Int) (route : Route) : Handler :=
  match route with
  | Route.health => healthHandler
  | Route.list => listHandler
  | Route.create => createHandler now
  | Route.get => getByIdHandler

/-- `reqLogMiddleware` (main.go:138-151); `elapsed` is the value of
`time.Since(start)` on line 144. -/
def reqLogMiddleware (next : Handler) (elapsed : Int) : Handler := fun w r st =>
  let (w1, st1) := next w r st
  if r.path ≠ "/health" then
    (w1, st1.slog Level.Info (LogMsg.processingTime elapsed)
      [("req_method", AttrValue.str r.method),
       ("req_path", AttrValue.str r.path),
       ("req_query", AttrValue.str r.rawQuery)])
  else (w1, st1)

/-! ## The running server -/

/-- The state when the server starts to listen: the seeded map, and the one
record `log.Println` has sent through the default logger. -/
def World.boot (boot : Int) : World :=
  { storage := LoggingAndMonitoring.storage boot
    logs := [{ level := Level.Info, msg := LogMsg.text "server running on port 8000",
               attrs := [] }] }

/-- One request served: the route it matches, the request, and the two
readings of the clock. -/
structure Call where
  route : Route
  req : Request
  now : Int
  elapsed : Int

/-- The handler installed by `main` (main.go:54), on a fresh writer. -/
def serve (c : Call) (st : World) : ResponseWriter × World :=
  reqLogMiddleware (getHandler c.now c.route) c.elapsed ResponseWriter.fresh c.req st

/-- The state after the calls have been served one after the other. -/
def run : List Call → World → World
  | [], st => st
  | c :: cs, st => run cs (serve c st).2

/-- The response writer after `FailResponse` on a fresh writer. -/
def failed (code : Nat) (msg : String) : ResponseWriter :=
  { header := [("Content-Type", "application/json")]
    status := some code
    body := [{ Ok := false, Data := Data.null, ErrorMessage := msg }] }

/-- The response writer after `SuccessResponse` on a fresh writer. -/
def succeeded (data : Data) : ResponseWriter :=
  { header := [("Content-Type", "application/json")]
    status := some 200
    body := [{ Ok := true, Data := data, ErrorMessage := "" }] }

/-- The spellings `strconv.ParseBool` reads as `true`. -/
def trueSpellings : List String := ["1", "t", "T", "true", "TRUE", "True"]

/-- The record a create builds from payload `p` at time `now` on the map
`m` (main.go:102-109). -/
def newRecord (m : Storage) (p : Transaction) (now : Int) : Transaction :=
  { ID := (m.len : Int) + 1
    UserID := p.UserID
    Name := p.Name
    Items := p.Items
    Amount := p.Amount
    CreatedAt := now }

/-! ## Auxiliary definitions -/

/-- A `POST /transactions` request with the given query values and payload. -/
def postRequest (query : List (String × List String)) (p : Transaction) : Request :=
  { method := "POST", path := "/transactions", rawQuery := "", query := query,
    pathValues := [], payload := Except.ok p }

/-- A request for `GET /transactions/{id}` with the given path segment. -/
def getRequest (id : String) : Request :=
  { method := "GET", path := "/transactions/" ++ id, rawQuery := "", query := [],
    pathValues := [("id", id)], payload := Except.error "EOF" }

/-- A payload without a user. -/
def anonPayload : Transaction :=
  { ID := 0, UserID := 0, Name := "Buy a mug", Items := ["Mug"], Amount := 15000, CreatedAt := 0 }

/-- A payload with a user, carrying an ID and a creation time of its own. -/
def userPayload : Transaction :=
  { ID := 77, UserID := 5, Name := "Buy a mug", Items := ["Mug"], Amount := 15000,
    CreatedAt := 123 }

/-- A call is a successful create when it matches `POST /transactions` and is
answered with status 200. -/
def succeeds (c : Call) (st : World) : Bool :=
  decide (c.route = Route.create ∧ (serve c st).1.status = some 200)

/-- The data of the envelope written to a response. -/
def dataOf (w : ResponseWriter) : Data :=
  match w.body with
  | [resp] => resp.Data
  | _ => Data.null

/-- The record returned by a call, when it is a successful create. -/
def createdBy (c : Call) (st : World) : Option Transaction :=
  if succeeds c st then
    match dataOf (serve c st).1 with
    | Data.trx t => some t
    | _ => none
  else none

/-- The number of successful creates among the calls served from `st`. -/
def successes : List Call → World → Nat
  | [], _ => 0
  | c :: cs, st => (if succeeds c st then 1 else 0) + successes cs (serve c st).2

/-- The records returned by the successful creates among the calls served
from `st`, in the order of the calls. -/
def createdRecords : List Call → World → List Transaction
  | [], _ => []
  | c :: cs, st => (createdBy c st).toList ++ createdRecords cs (serve c st).2

/-- The keys of the map are `1, ..., len` and each record carries its key as
its ID. -/
def Storage.Dense (m : Storage) : Prop :=
  (∀ k : Int, m.get k ≠ none ↔ 1 ≤ k ∧ k ≤ (m.len : Int)) ∧
  (∀ (k : Int) (t : Transaction), m.get k = some t → t.ID = k)

/-- The character of the decimal digit `d`. -/
def digitChar (d : Nat) : Char := Char.ofNat ('0'.toNat + d)

/-- The decimal digits of `n`, most significant first; `fuel` bounds the
number of digits. -/
def natDigits : Nat → Nat → List Char
  | 0, _ => []
  | fuel + 1, n =>
    if n < 10 then [digitChar n] else natDigits fuel (n / 10) ++ [digitChar (n % 10)]

/-- The numeral `strconv.FormatInt(i, 10)` writes: a minus sign when `i` is
negative, then the decimal digits of the magnitude without leading zeros. -/
def FormatInt (i : Int) : String :=
  if i < 0 then String.mk ('-' :: natDigits (i.natAbs + 1) i.natAbs)
  else String.mk (natDigits (i.natAbs + 1) i.natAbs)

/-- The value of a string of decimal digits read after the value `n`, or
`none` when a character is not a decimal digit. -/
def digitsValue : List Char → Nat → Option Nat
  | [], n => some n
  | c :: cs, n =>
    if '0' ≤ c ∧ c ≤ '9' then digitsValue cs (n * 10 + (c.toNat - '0'.toNat)) else none

/-- What the specification calls parsing a path segment as a base-10 signed
64-bit integer: an optional sign, then one or more decimal digits, whose
value lies between `-2 ^ 63` and `2 ^ 63 - 1`; `none` when the segment is
not such a numeral. -/
def decimalInt64 (s : String) : Option Int :=
  match s.toList with
  | [] => none
  | c :: cs =>
    let digits := if c = '+' ∨ c = '-' then cs else c :: cs
    match digits with
    | [] => none
    | _ =>
      match digitsValue digits 0 with
      | none => none
      | some v =>
        let i : Int := if c = '-' then -(v : Int) else (v : Int)
        if -(2 ^ 63) ≤ i ∧ i < 2 ^ 63 then some i else none

/-- One earlier successful create, served before the calls of interest. -/
def earlierCalls : List Call :=
  [{ route := Route.create, req := postRequest [] userPayload, now := 8000, elapsed := 12 }]

/-! ## Basic facts -/

/-- `FailResponse` on a fresh writer, for a code that `net/http` writes as a
final status with a body. -/
theorem FailResponse_fresh (err : String) (code : Int) (h1 : 200 ≤ code) (h2 : code ≤ 999)
    (h3 : code ≠ 204) (h4 : code ≠ 304) :
    FailResponse ResponseWriter.fresh err code = failed code.toNat err := by
  have hp : ¬ (code < 100 ∨ code > 999) := by omega
  have hi : ¬ (100 ≤ code ∧ code ≤ 199 ∧ code ≠ 101) := by omega
  have hb : bodyAllowedForStatus code.toNat = true := by
    have c1 : ¬ (100 ≤ code.toNat ∧ code.toNat ≤ 199) := by omega
    have c2 : ¬ code.toNat = 204 := by omega
    have c3 : ¬ code.toNat = 304 := by omega
    simp only [bodyAllowedForStatus, c1, c2, c3, if_false]
  simp only [FailResponse, ResponseWriter.WriteHeader, ResponseWriter.headerSet,
    ResponseWriter.fresh, hp, hi, if_false, ResponseWriter.encode, hb, if_true, failed]
  rfl

theorem SuccessResponse_fresh (data : Data) :
    SuccessResponse ResponseWriter.fresh data = succeeded data := rfl

theorem parseBoolValue_eq_true_iff (v : String) :
    parseBoolValue v = true ↔ v ∈ trueSpellings := by
  unfold parseBoolValue ParseBool trueSpellings
  simp only [List.mem_cons, List.mem_singleton, List.not_mem_nil, or_false]
  by_cases h1 : v = "1" ∨ v = "t" ∨ v = "T" ∨ v = "true" ∨ v = "TRUE" ∨ v = "True"
  · simp [h1]
  · by_cases h2 : v = "0" ∨ v = "f" ∨ v = "F" ∨ v = "false" ∨ v = "FALSE" ∨ v = "False"
    · simp [h1, h2]
    · simp [h1, h2]

theorem urlValuesGet_absent (q : List (String × List String)) (key : String)
    (h : q.lookup key = none) : urlValuesGet q key = "" := by
  simp [urlValuesGet, h]

/-- The create handler when the payload decodes, has no user and the request
is not flagged anonymous. -/
theorem createHandler_rejected (now : Int) (w : ResponseWriter) (r : Request) (st : World)
    (p : Transaction) (hp : r.payload = Except.ok p) (hu : p.UserID = 0)
    (ha : parseBoolValue (urlValuesGet r.query "anonymous") = false) :
    createHandler now w r st =
      (FailResponse w "must provide user ID" StatusBadRequest,
        st.slog Level.Error (LogMsg.text "transaction has empty user ID")
          [("payload", AttrValue.trx p)]) := by
  simp [createHandler, hp, hu, ha]

/-- The create handler when the payload decodes and passes the validation. -/
theorem createHandler_accepted (now : Int) (w : ResponseWriter) (r : Request) (st : World)
    (p : Transaction) (hp : r.payload = Except.ok p)
    (h : p.UserID ≠ 0 ∨ parseBoolValue (urlValuesGet r.query "anonymous") = true) :
    createHandler now w r st =
      (SuccessResponse w (Data.trx (newRecord st.storage p now)),
        { st with storage :=
            st.storage.set ((st.storage.len : Int) + 1) (newRecord st.storage p now) }) := by
  rcases h with h | h
  · simp [createHandler, newRecord, hp, h]
  · simp [createHandler, newRecord, hp, h]

/-- The create handler when the body does not decode. -/
theorem createHandler_undecodable (now : Int) (w : ResponseWriter) (r : Request) (st : World)
    (e : String) (hp : r.payload = Except.error e) :
    createHandler now w r st =
      (FailResponse w "fail decode request body" StatusBadRequest,
        st.slog Level.Error (LogMsg.text "fail decode request body")
          [("error", AttrValue.str e)]) := by
  simp [createHandler, hp]

/-- The get handler on a path segment that does not parse. -/
theorem getByIdHandler_invalid (w : ResponseWriter) (r : Request) (st : World) (e : NumError)
    (hp : ParseInt (r.PathValue "id") = Except.error e) :
    getByIdHandler w r st =
      (FailResponse w "invalid transaction id" StatusBadRequest,
        st.slog Level.Error (LogMsg.text "invalid transaction id")
          [("transaction_id", AttrValue.str (r.PathValue "id"))]) := by
  simp [getByIdHandler, hp]

/-- The get handler on a path segment that parses to an absent key. -/
theorem getByIdHandler_missing (w : ResponseWriter) (r : Request) (st : World) (k : Int)
    (hp : ParseInt (r.PathValue "id") = Except.ok k) (hg : st.storage.get k = none) :
    getByIdHandler w r st =
      (FailResponse w "transaction not found" StatusNotFound,
        st.slog Level.Warn (LogMsg.text "transaction not found")
          [("transaction_id", AttrValue.int k)]) := by
  simp [getByIdHandler, hp, hg]

/-- The get handler on a path segment that parses to a key of the store. -/
theorem getByIdHandler_found (w : ResponseWriter) (r : Request) (st : World) (k : Int)
    (t : Transaction)
    (hp : ParseInt (r.PathValue "id") = Except.ok k) (hg : st.storage.get k = some t) :
    getByIdHandler w r st = (SuccessResponse w (Data.trx t), st) := by
  simp [getByIdHandler, hp, hg]

/-! ## The create handler -/

/-- C1: a `POST /transactions` whose body decodes to a payload with
`UserID = 0` and whose query has no `anonymous` parameter is answered with
status 400 and the envelope `ok = false`, `error_message = "must provide user
ID"`, no data; the store is left as it was. -/
theorem create_without_user_rejected (now : Int) (r : Request) (st : World) (p : Transaction)
    (hp : r.payload = Except.ok p) (hu : p.UserID = 0)
    (hq : r.query.lookup "anonymous" = none) :
    (getHandler now Route.create ResponseWriter.fresh r st).1
        = { header := [("Content-Type", "application/json")]
            status := some 400
            body := [{ Ok := false, Data := Data.null,
                       ErrorMessage := "must provide user ID" }] } ∧
      (getHandler now Route.create ResponseWriter.fresh r st).2.storage = st.storage := by
  have ha : parseBoolValue (urlValuesGet r.query "anonymous") = false := by
    rw [urlValuesGet_absent _ _ hq]; decide
  simp only [getHandler]
  rw [createHandler_rejected now _ r st p hp hu ha]
  exact ⟨rfl, rfl⟩

/-- The rejection of C1 on the seeded store, for a payload without a user and an
empty query. -/
theorem create_without_user_rejected_witness :
    (postRequest [] anonPayload).payload = Except.ok anonPayload ∧
    anonPayload.UserID = 0 ∧
    (postRequest [] anonPayload).query.lookup "anonymous" = none ∧
    (getHandler 9000 Route.create ResponseWriter.fresh (postRequest [] anonPayload)
        (World.boot 5000)).1
        = { header := [("Content-Type", "application/json")]
            status := some 400
            body := [{ Ok := false, Data := Data.null,
                       ErrorMessage := "must provide user ID" }] } ∧
    (getHandler 9000 Route.create ResponseWriter.fresh (postRequest [] anonPayload)
        (World.boot 5000)).2.storage = (World.boot 5000).storage :=
  ⟨rfl, rfl, rfl,
    create_without_user_rejected 9000 (postRequest [] anonPayload) (World.boot 5000)
      anonPayload rfl rfl rfl⟩

/-- C2, as stated, fails: `anonymous=1` is a value other than `true`, yet on
the seeded store a payload without a user is then accepted: the answer is 200
with the new record, which is stored under key 3. -/
theorem anonymous_flag_one_accepted :
    urlValuesGet (postRequest [("anonymous", ["1"])] anonPayload).query "anonymous" = "1" ∧
    "1" ≠ "true" ∧
    (postRequest [("anonymous", ["1"])] anonPayload).payload = Except.ok anonPayload ∧
    anonPayload.UserID = 0 ∧
    (getHandler 9000 Route.create ResponseWriter.fresh
        (postRequest [("anonymous", ["1"])] anonPayload) (World.boot 5000)).1
      = { header := [("Content-Type", "application/json")]
          status := some 200
          body := [{ Ok := true
                     Data := Data.trx (Transaction.mk 3 0 "Buy a mug" ["Mug"] 15000 9000)
                     ErrorMessage := "" }] } ∧
    (World.boot 5000).storage.get 3 = none ∧
    (getHandler 9000 Route.create ResponseWriter.fresh
        (postRequest [("anonymous", ["1"])] anonPayload) (World.boot 5000)).2.storage.get 3
      = some (Transaction.mk 3 0 "Buy a mug" ["Mug"] 15000 9000) := by
  decide

/-- C2, amended: a payload with `UserID = 0` is rejected with status 400 and
"must provide user ID", and nothing is stored, for every value of the
`anonymous` parameter that `strconv.ParseBool` does not read as true, that is
every value (the absent parameter reads as `""`) other than `1`, `t`, `T`,
`true`, `TRUE`, `True`. -/
theorem anonymous_only_with_true_flag (now : Int) (r : Request) (st : World) (p : Transaction)
    (hp : r.payload = Except.ok p) (hu : p.UserID = 0)
    (hv : urlValuesGet r.query "anonymous" ∉ ["1", "t", "T", "true", "TRUE", "True"]) :
    (getHandler now Route.create ResponseWriter.fresh r st).1
        = failed 400 "must provide user ID" ∧
      (getHandler now Route.create ResponseWriter.fresh r st).2.storage = st.storage := by
  have ha : parseBoolValue (urlValuesGet r.query "anonymous") = false := by
    cases hb : parseBoolValue (urlValuesGet r.query "anonymous") with
    | false => rfl
    | true => exact absurd ((parseBoolValue_eq_true_iff _).1 hb) hv
  simp only [getHandler]
  rw [createHandler_rejected now _ r st p hp hu ha]
  exact ⟨rfl, rfl⟩

/-- The rejection of C2 on the seeded store, for `anonymous=yes`. -/
theorem anonymous_only_with_true_flag_witness :
    (postRequest [("anonymous", ["yes"])] anonPayload).payload = Except.ok anonPayload ∧
    anonPayload.UserID = 0 ∧
    urlValuesGet (postRequest [("anonymous", ["yes"])] anonPayload).query "anonymous"
      ∉ ["1", "t", "T", "true", "TRUE", "True"] ∧
    (getHandler 9000 Route.create ResponseWriter.fresh
        (postRequest [("anonymous", ["yes"])] anonPayload) (World.boot 5000)).1
        = failed 400 "must provide user ID" ∧
    (getHandler 9000 Route.create ResponseWriter.fresh
        (postRequest [("anonymous", ["yes"])] anonPayload) (World.boot 5000)).2.storage
        = (World.boot 5000).storage :=
  ⟨rfl, rfl, by decide,
    anonymous_only_with_true_flag 9000 (postRequest [("anonymous", ["yes"])] anonPayload)
      (World.boot 5000) anonPayload rfl rfl (by decide)⟩

/-- C3: a `POST /transactions` whose body decodes to `p`, with `p.UserID ≠ 0`
or with `anonymous=true`, is answered with status 200 and a success envelope
whose data is the record `rec` with `rec.ID = size + 1`, `rec.CreatedAt = now`
and the `UserID`, `Name`, `Items`, `Amount` of `p`; afterwards the store maps
`size + 1` to `rec`. -/
theorem create_success (now : Int) (r : Request) (st : World) (p : Transaction)
    (hp : r.payload = Except.ok p)
    (h : p.UserID ≠ 0 ∨ urlValuesGet r.query "anonymous" = "true") :
    ∃ rec : Transaction,
      rec.ID = (st.storage.len : Int) + 1 ∧ rec.CreatedAt = now ∧
      rec.UserID = p.UserID ∧ rec.Name = p.Name ∧ rec.Items = p.Items ∧
      rec.Amount = p.Amount ∧
      (getHandler now Route.create ResponseWriter.fresh r st).1
        = { header := [("Content-Type", "application/json")]
            status := some 200
            body := [{ Ok := true, Data := Data.trx rec, ErrorMessage := "" }] } ∧
      (getHandler now Route.create ResponseWriter.fresh r st).2.storage.get
        ((st.storage.len : Int) + 1) = some rec := by
  have h1 : p.UserID ≠ 0 ∨ parseBoolValue (urlValuesGet r.query "anonymous") = true := by
    rcases h with h | h
    · exact Or.inl h
    · right; rw [h]; decide
  refine ⟨newRecord st.storage p now, rfl, rfl, rfl, rfl, rfl, rfl, ?_, ?_⟩
  · simp only [getHandler]
    rw [createHandler_accepted now _ r st p hp h1]
    rfl
  · simp only [getHandler]
    rw [createHandler_accepted now _ r st p hp h1]
    simp [Storage.get, Storage.set]

/-- The success of C3 on the seeded store, for a payload without a user and
`anonymous=true`. -/
theorem create_success_witness :
    (postRequest [("anonymous", ["true"])] anonPayload).payload = Except.ok anonPayload ∧
    (anonPayload.UserID ≠ 0 ∨
      urlValuesGet (postRequest [("anonymous", ["true"])] anonPayload).query "anonymous"
        = "true") ∧
    ∃ rec : Transaction,
      rec.ID = ((World.boot 5000).storage.len : Int) + 1 ∧ rec.CreatedAt = 9000 ∧
      rec.UserID = anonPayload.UserID ∧ rec.Name = anonPayload.Name ∧
      rec.Items = anonPayload.Items ∧ rec.Amount = anonPayload.Amount ∧
      (getHandler 9000 Route.create ResponseWriter.fresh
          (postRequest [("anonymous", ["true"])] anonPayload) (World.boot 5000)).1
        = { header := [("Content-Type", "application/json")]
            status := some 200
            body := [{ Ok := true, Data := Data.trx rec, ErrorMessage := "" }] } ∧
      (getHandler 9000 Route.create ResponseWriter.fresh
          (postRequest [("anonymous", ["true"])] anonPayload) (World.boot 5000)).2.storage.get
        (((World.boot 5000).storage.len : Int) + 1) = some rec :=
  ⟨rfl, Or.inr (by decide),
    create_success 9000 (postRequest [("anonymous", ["true"])] anonPayload) (World.boot 5000)
      anonPayload rfl (Or.inr (by decide))⟩

/-! ## The middleware -/

/-- C8: for every request and every inner handler, `reqLogMiddleware` hands
back what the inner handler wrote, unchanged, and the log afterwards is the
log the inner handler left followed by exactly one record with the request's
method, path and raw query when the path is not exactly `/health`, and by
nothing when it is. -/
theorem reqLogMiddleware_logs_once (next : Handler) (elapsed : Int) (w : ResponseWriter)
    (r : Request) (st : World) :
    (reqLogMiddleware next elapsed w r st).1 = (next w r st).1 ∧
    (reqLogMiddleware next elapsed w r st).2.storage = (next w r st).2.storage ∧
    (reqLogMiddleware next elapsed w r st).2.logs
      = (next w r st).2.logs ++
          (if r.path = "/health" then []
           else [{ level := Level.Info
                   msg := LogMsg.processingTime elapsed
                   attrs := [("req_method", AttrValue.str r.method),
                             ("req_path", AttrValue.str r.path),
                             ("req_query", AttrValue.str r.rawQuery)] }]) := by
  unfold reqLogMiddleware
  by_cases h : r.path = "/health"
  · simp [h]
  · simp [h, World.slog]

/-! ## The envelope -/

/-- C9: `SuccessResponse` writes status 200, `Content-Type: application/json`
and `ok = true` with the data and an empty error message; `FailResponse`
writes the given status, the same content type and `ok = false` with the
error's message and no data, for every code that `net/http` writes as a final
status with a body (200 to 999 except 204 and 304, so for the 400 and 404 of
this program); and every answer of the four handlers is one such envelope with
status 200, 400 or 404, where `ok` holds exactly when the status is 200. -/
theorem envelope_uniform :
    (∀ data : Data,
      SuccessResponse ResponseWriter.fresh data
        = { header := [("Content-Type", "application/json")]
            status := some 200
            body := [{ Ok := true, Data := data, ErrorMessage := "" }] }) ∧
    (∀ (err : String) (code : Nat),
      200 ≤ code → code ≤ 999 → code ≠ 204 → code ≠ 304 →
      FailResponse ResponseWriter.fresh err (code : Int)
        = { header := [("Content-Type", "application/json")]
            status := some code
            body := [{ Ok := false, Data := Data.null, ErrorMessage := err }] }) ∧
    (∀ (now : Int) (route : Route) (r : Request) (st : World),
      ∃ (code : Nat) (resp : Response),
        (getHandler now route ResponseWriter.fresh r st).1
          = { header := [("Content-Type", "application/json")]
              status := some code
              body := [resp] } ∧
        (code = 200 ∨ code = 400 ∨ code = 404) ∧
        (resp.Ok = true ↔ code = 200)) := by
  refine ⟨fun _ => rfl, ?_, ?_⟩
  · intro err code h1 h2 h3 h4
    rw [FailResponse_fresh err (code : Int) (by omega) (by omega) (by omega) (by omega)]
    rfl
  intro now route r st
  cases route with
  | health => exact ⟨200, _, rfl, Or.inl rfl, by simp⟩
  | list => exact ⟨200, _, rfl, Or.inl rfl, by simp⟩
  | create =>
    simp only [getHandler, createHandler]
    cases hp : r.payload with
    | error e => exact ⟨400, _, rfl, Or.inr (Or.inl rfl), by simp⟩
    | ok p =>
      by_cases hc : (!parseBoolValue (urlValuesGet r.query "anonymous") && p.UserID == 0) = true
      · simp only [hc, if_true]
        exact ⟨400, _, rfl, Or.inr (Or.inl rfl), by simp⟩
      · simp only [hc]
        exact ⟨200, _, rfl, Or.inl rfl, by simp⟩
  | get =>
    simp only [getHandler]
    cases hp : ParseInt (r.PathValue "id") with
    | error e =>
      rw [getByIdHandler_invalid _ r st e hp]
      exact ⟨400, _, rfl, Or.inr (Or.inl rfl), by simp⟩
    | ok k =>
      cases hg : st.storage.get k with
      | none =>
        rw [getByIdHandler_missing _ r st k hp hg]
        exact ⟨404, _, rfl, Or.inr (Or.inr rfl), by simp⟩
      | some t =>
        rw [getByIdHandler_found _ r st k t hp hg]
        exact ⟨200, _, rfl, Or.inl rfl, by simp⟩

/-- The envelope of C9 written by `FailResponse` with the code 404. -/
theorem envelope_uniform_witness :
    FailResponse ResponseWriter.fresh "transaction not found" ((404 : Nat) : Int)
      = { header := [("Content-Type", "application/json")]
          status := some 404
          body := [{ Ok := false, Data := Data.null,
                     ErrorMessage := "transaction not found" }] } :=
  envelope_uniform.2.1 "transaction not found" 404 (by decide) (by decide) (by decide)
    (by decide)

/-! ## Runs of the server -/

/-! ### The map -/

theorem Storage.get_set_self (m : Storage) (k : Int) (v : Transaction) :
    (m.set k v).get k = some v := by
  simp [Storage.get, Storage.set]

theorem Storage.get_set_ne (m : Storage) (k j : Int) (v : Transaction) (h : j ≠ k) :
    (m.set k v).get j = m.get j := by
  simp [Storage.get, Storage.set, AList.lookup_insert_ne h]

theorem Storage.not_mem_of_get_none (m : Storage) (k : Int) (h : m.get k = none) : k ∉ m :=
  AList.lookup_eq_none.1 h

theorem Storage.len_set_new (m : Storage) (k : Int) (v : Transaction) (h : m.get k = none) :
    (m.set k v).len = m.len + 1 := by
  unfold Storage.len Storage.set
  rw [AList.insert_entries_of_neg (Storage.not_mem_of_get_none m k h)]
  rfl

theorem Storage.values_set_new (m : Storage) (k : Int) (v : Transaction)
    (h : m.get k = none) : (m.set k v).values = v :: m.values := by
  unfold Storage.values Storage.set
  rw [AList.insert_entries_of_neg (Storage.not_mem_of_get_none m k h)]
  rfl

theorem Storage.length_values (m : Storage) : m.values.length = m.len := by
  simp [Storage.values, Storage.len]

theorem Storage.mem_values_iff (m : Storage) (t : Transaction) :
    t ∈ m.values ↔ ∃ k, m.get k = some t := by
  constructor
  · intro h
    obtain ⟨e, he, rfl⟩ := List.mem_map.1 h
    exact ⟨e.1, by
      have : (⟨e.1, e.2⟩ : Sigma (fun _ : Int => Transaction)) ∈ m.entries := by simpa using he
      simpa [Storage.get] using (AList.mem_lookup_iff.2 this)⟩
  · rintro ⟨k, hk⟩
    have : (⟨k, t⟩ : Sigma (fun _ : Int => Transaction)) ∈ m.entries :=
      AList.mem_lookup_iff.1 (by simpa [Storage.get] using hk)
    exact List.mem_map.2 ⟨⟨k, t⟩, this, rfl⟩

/-- In a dense map the next ID is free. -/
theorem Storage.Dense.next_free {m : Storage} (h : m.Dense) :
    m.get ((m.len : Int) + 1) = none := by
  by_contra hc
  have := (h.1 _).1 hc
  omega

/-- In a dense map the records are pairwise distinct. -/
theorem Storage.Dense.nodup_values {m : Storage} (h : m.Dense) : m.values.Nodup := by
  have hk : (m.values.map Transaction.ID) = m.keys := by
    simp only [Storage.values, List.map_map, AList.keys, List.keys]
    apply List.map_congr_left
    intro e he
    have : (⟨e.1, e.2⟩ : Sigma (fun _ : Int => Transaction)) ∈ m.entries := by simpa using he
    exact h.2 e.1 e.2 (by simpa [Storage.get] using (AList.mem_lookup_iff.2 this))
  have hn : (m.values.map Transaction.ID).Nodup := by rw [hk]; exact m.keys_nodup
  exact List.Nodup.of_map _ hn

/-- Storing a record with ID `len + 1` under the key `len + 1` keeps a dense
map dense. -/
theorem Storage.Dense.set_next {m : Storage} (h : m.Dense) (v : Transaction)
    (hv : v.ID = (m.len : Int) + 1) : (m.set ((m.len : Int) + 1) v).Dense := by
  have hfree := h.next_free
  have hlen := Storage.len_set_new m _ v hfree
  constructor
  · intro k
    by_cases hk : k = (m.len : Int) + 1
    · subst hk
      rw [Storage.get_set_self, hlen]
      simp
    · rw [Storage.get_set_ne m _ k v hk, h.1 k, hlen]
      push_cast
      omega
  · intro k t hkt
    by_cases hk : k = (m.len : Int) + 1
    · subst hk
      rw [Storage.get_set_self] at hkt
      cases hkt
      exact hv
    · rw [Storage.get_set_ne m _ k v hk] at hkt
      exact h.2 k t hkt

theorem storage_dense (boot : Int) : (storage boot).Dense := by
  have hlen : (storage boot).len = 2 := rfl
  constructor
  · intro k
    rw [hlen]
    by_cases h2 : k = 2
    · subst h2; simp [storage, Storage.get_set_self]
    · by_cases h1 : k = 1
      · subst h1
        simp [storage, Storage.get_set_ne _ _ _ _ h2, Storage.get_set_self]
      · simp only [storage, Storage.get_set_ne _ _ _ _ h2, Storage.get_set_ne _ _ _ _ h1]
        simp [Storage.get]
        omega
  · intro k t hkt
    by_cases h2 : k = 2
    · subst h2
      simp [storage, Storage.get_set_self] at hkt
      rw [← hkt]
    · by_cases h1 : k = 1
      · subst h1
        simp [storage, Storage.get_set_ne _ _ _ _ h2, Storage.get_set_self] at hkt
        rw [← hkt]
      · simp only [storage, Storage.get_set_ne _ _ _ _ h2, Storage.get_set_ne _ _ _ _ h1] at hkt
        simp [Storage.get] at hkt

/-! ### One call -/

theorem reqLogMiddleware_fst (next : Handler) (elapsed : Int) (w : ResponseWriter)
    (r : Request) (st : World) :
    (reqLogMiddleware next elapsed w r st).1 = (next w r st).1 := by
  unfold reqLogMiddleware
  by_cases h : r.path = "/health" <;> simp [h]

theorem reqLogMiddleware_storage (next : Handler) (elapsed : Int) (w : ResponseWriter)
    (r : Request) (st : World) :
    (reqLogMiddleware next elapsed w r st).2.storage = (next w r st).2.storage := by
  unfold reqLogMiddleware
  by_cases h : r.path = "/health" <;> simp [h, World.slog]

theorem serve_fst (c : Call) (st : World) :
    (serve c st).1 = (getHandler c.now c.route ResponseWriter.fresh c.req st).1 :=
  reqLogMiddleware_fst _ _ _ _ _

theorem serve_storage (c : Call) (st : World) :
    (serve c st).2.storage
      = (getHandler c.now c.route ResponseWriter.fresh c.req st).2.storage :=
  reqLogMiddleware_storage _ _ _ _ _

/-- The two ways a create ends: rejected with status 400 and the store as it
was, or accepted with the new record returned and stored under `len + 1`. -/
theorem createHandler_cases (now : Int) (r : Request) (st : World) :
    ((createHandler now ResponseWriter.fresh r st).1.status = some 400 ∧
      (createHandler now ResponseWriter.fresh r st).2.storage = st.storage) ∨
    (∃ p, r.payload = Except.ok p ∧
      (p.UserID ≠ 0 ∨ parseBoolValue (urlValuesGet r.query "anonymous") = true) ∧
      (createHandler now ResponseWriter.fresh r st).1
        = succeeded (Data.trx (newRecord st.storage p now)) ∧
      (createHandler now ResponseWriter.fresh r st).2.storage
        = st.storage.set ((st.storage.len : Int) + 1) (newRecord st.storage p now)) := by
  cases hp : r.payload with
  | error e =>
    left
    rw [createHandler_undecodable now _ r st e hp]
    exact ⟨rfl, rfl⟩
  | ok p =>
    by_cases hu : p.UserID = 0
    · cases ha : parseBoolValue (urlValuesGet r.query "anonymous") with
      | false =>
        left
        rw [createHandler_rejected now _ r st p hp hu ha]
        exact ⟨rfl, rfl⟩
      | true =>
        right
        refine ⟨p, rfl, Or.inr rfl, ?_, ?_⟩
        · rw [createHandler_accepted now _ r st p hp (Or.inr ha)]; rfl
        · rw [createHandler_accepted now _ r st p hp (Or.inr ha)]
    · right
      refine ⟨p, rfl, Or.inl hu, ?_, ?_⟩
      · rw [createHandler_accepted now _ r st p hp (Or.inl hu)]; rfl
      · rw [createHandler_accepted now _ r st p hp (Or.inl hu)]

/-- The handlers other than create leave the store as it was. -/
theorem getHandler_storage_of_ne_create (now : Int) (route : Route) (w : ResponseWriter)
    (r : Request) (st : World) (h : route ≠ Route.create) :
    (getHandler now route w r st).2.storage = st.storage := by
  cases route with
  | health => rfl
  | list => rfl
  | create => exact absurd rfl h
  | get =>
    simp only [getHandler]
    cases hp : ParseInt (r.PathValue "id") with
    | error e => rw [getByIdHandler_invalid w r st e hp]; rfl
    | ok k =>
      cases hg : st.storage.get k with
      | none => rw [getByIdHandler_missing w r st k hp hg]; rfl
      | some t => rw [getByIdHandler_found w r st k t hp hg]

/-- A served call either is no successful create and leaves the store as it
was, or is a successful create that returns the new record and stores it
under `len + 1`. -/
theorem serve_step (c : Call) (st : World) :
    (succeeds c st = false ∧ createdBy c st = none ∧
      (serve c st).2.storage = st.storage) ∨
    (∃ p, succeeds c st = true ∧ c.route = Route.create ∧ c.req.payload = Except.ok p ∧
      createdBy c st = some (newRecord st.storage p c.now) ∧
      (serve c st).1 = succeeded (Data.trx (newRecord st.storage p c.now)) ∧
      (serve c st).2.storage
        = st.storage.set ((st.storage.len : Int) + 1) (newRecord st.storage p c.now)) := by
  by_cases hr : c.route = Route.create
  · have h1 : (serve c st).1 = (createHandler c.now ResponseWriter.fresh c.req st).1 := by
      rw [serve_fst, hr]; rfl
    have h2 : (serve c st).2.storage
        = (createHandler c.now ResponseWriter.fresh c.req st).2.storage := by
      rw [serve_storage, hr]; rfl
    rcases createHandler_cases c.now c.req st with ⟨hs, hst⟩ | ⟨p, hp, _, hw, hst⟩
    · left
      have hf : succeeds c st = false := by
        simp [succeeds, h1, hs]
      exact ⟨hf, by simp [createdBy, hf], by rw [h2, hst]⟩
    · right
      have ht : succeeds c st = true := by
        simp [succeeds, hr, h1, hw, succeeded]
      refine ⟨p, ht, hr, hp, ?_, by rw [h1, hw], by rw [h2, hst]⟩
      simp [createdBy, ht, h1, hw, dataOf, succeeded]
  · left
    have hf : succeeds c st = false := by simp [succeeds, hr]
    refine ⟨hf, by simp [createdBy, hf], ?_⟩
    rw [serve_storage]
    exact getHandler_storage_of_ne_create _ _ _ _ _ hr

/-! ### Many calls -/

theorem serve_dense (c : Call) (st : World) (h : st.storage.Dense) :
    (serve c st).2.storage.Dense := by
  rcases serve_step c st with ⟨_, _, hs⟩ | ⟨p, _, _, _, _, _, hs⟩
  · rw [hs]; exact h
  · rw [hs]; exact h.set_next _ rfl

theorem run_dense (calls : List Call) (st : World) (h : st.storage.Dense) :
    (run calls st).storage.Dense := by
  induction calls generalizing st with
  | nil => exact h
  | cons c cs ih => exact ih _ (serve_dense c st h)

theorem length_createdRecords (calls : List Call) (st : World) :
    (createdRecords calls st).length = successes calls st := by
  induction calls generalizing st with
  | nil => rfl
  | cons c cs ih =>
    simp only [createdRecords, successes, List.length_append, ih]
    rcases serve_step c st with ⟨hf, hc, _⟩ | ⟨p, ht, _, _, hc, _, _⟩
    · simp [hf, hc]
    · simp [ht, hc]

theorem serve_values (c : Call) (st : World) (h : st.storage.Dense) :
    (serve c st).2.storage.values = (createdBy c st).toList ++ st.storage.values := by
  rcases serve_step c st with ⟨_, hc, hs⟩ | ⟨p, _, _, _, hc, _, hs⟩
  · rw [hs, hc]; rfl
  · rw [hs, hc, Storage.values_set_new _ _ _ h.next_free]; rfl

theorem run_values (calls : List Call) (st : World) (h : st.storage.Dense) :
    (run calls st).storage.values
      = (createdRecords calls st).reverse ++ st.storage.values := by
  induction calls generalizing st with
  | nil => rfl
  | cons c cs ih =>
    simp only [run, createdRecords]
    rw [ih _ (serve_dense c st h), serve_values c st h]
    cases createdBy c st <;> simp

theorem serve_get_mono (c : Call) (st : World) (h : st.storage.Dense) (k : Int)
    (t : Transaction) (hk : st.storage.get k = some t) :
    (serve c st).2.storage.get k = some t := by
  rcases serve_step c st with ⟨_, _, hs⟩ | ⟨p, _, _, _, _, _, hs⟩
  · rw [hs]; exact hk
  · rw [hs, Storage.get_set_ne]
    · exact hk
    · intro he
      rw [he, h.next_free] at hk
      cases hk

theorem run_get_mono (calls : List Call) (st : World) (h : st.storage.Dense) (k : Int)
    (t : Transaction) (hk : st.storage.get k = some t) :
    (run calls st).storage.get k = some t := by
  induction calls generalizing st with
  | nil => exact hk
  | cons c cs ih => exact ih _ (serve_dense c st h) (serve_get_mono c st h k t hk)

/-! ## The invariant of the store -/

/-- C4: in every store reached from the seeded store by serving any sequence
of requests to the four handlers, the keys are exactly `1, ..., n` for
`n = len`, every record stored under key `k` has `ID = k`, no two records
stored under different keys share an ID, the key `n + 1` the next create
would assign is not in use, and no request overwrites or removes a stored
record. -/
theorem store_ids_unique (boot : Int) (calls : List Call) :
    (∀ k : Int, (run calls (World.boot boot)).storage.get k ≠ none ↔
      1 ≤ k ∧ k ≤ ((run calls (World.boot boot)).storage.len : Int)) ∧
    (∀ (k : Int) (t : Transaction),
      (run calls (World.boot boot)).storage.get k = some t → t.ID = k) ∧
    (∀ (k1 k2 : Int) (t1 t2 : Transaction),
      (run calls (World.boot boot)).storage.get k1 = some t1 →
      (run calls (World.boot boot)).storage.get k2 = some t2 →
      t1.ID = t2.ID → k1 = k2) ∧
    (run calls (World.boot boot)).storage.get
      (((run calls (World.boot boot)).storage.len : Int) + 1) = none ∧
    (∀ (c : Call) (k : Int) (t : Transaction),
      (run calls (World.boot boot)).storage.get k = some t →
      (serve c (run calls (World.boot boot))).2.storage.get k = some t) := by
  have hd : (run calls (World.boot boot)).storage.Dense :=
    run_dense calls _ (storage_dense boot)
  refine ⟨hd.1, hd.2, ?_, hd.next_free, fun c k t hk => serve_get_mono c _ hd k t hk⟩
  intro k1 k2 t1 t2 h1 h2 he
  rw [← hd.2 k1 t1 h1, ← hd.2 k2 t2 h2]
  exact he

/-! ## Listing -/

theorem foldl_append_singleton (xs acc : List Transaction) :
    xs.foldl (fun acc trx => acc ++ [trx]) acc = acc ++ xs := by
  induction xs generalizing acc with
  | nil => simp
  | cons x xs ih => simp [List.foldl, ih]

theorem listHandler_fst (w : ResponseWriter) (r : Request) (st : World) :
    (listHandler w r st).1 = SuccessResponse w (Data.list st.storage.values) := by
  simp [listHandler, foldl_append_singleton]

/-- C6: after any sequence of calls served from the seeded store, `N` of them
successful creates (the others failing creates and reads), `GET /transactions`
answers 200 with a list of `N + 2` records, hence at least `N + 2`, in which
every record of the store, both seeded records and each of the `N` created
records, occurs exactly once. -/
theorem list_after_creates (boot : Int) (calls : List Call) (now : Int) (r : Request) :
    ∃ l : List Transaction,
      (getHandler now Route.list ResponseWriter.fresh r (run calls (World.boot boot))).1
        = { header := [("Content-Type", "application/json")]
            status := some 200
            body := [{ Ok := true, Data := Data.list l, ErrorMessage := "" }] } ∧
      (createdRecords calls (World.boot boot)).length = successes calls (World.boot boot) ∧
      l.length = successes calls (World.boot boot) + 2 ∧
      successes calls (World.boot boot) + 2 ≤ l.length ∧
      (∀ (k : Int) (t : Transaction),
        (run calls (World.boot boot)).storage.get k = some t → l.count t = 1) ∧
      (∀ (k : Int) (t : Transaction), (storage boot).get k = some t → l.count t = 1) ∧
      (∀ t : Transaction, t ∈ createdRecords calls (World.boot boot) → l.count t = 1) := by
  have hd0 : (World.boot boot).storage.Dense := storage_dense boot
  have hd : (run calls (World.boot boot)).storage.Dense := run_dense calls _ hd0
  have hv := run_values calls _ hd0
  have hn := hd.nodup_values
  have hlen : (run calls (World.boot boot)).storage.values.length
      = successes calls (World.boot boot) + 2 := by
    rw [hv, List.length_append, List.length_reverse, length_createdRecords]
    rfl
  have hcount : ∀ t, t ∈ (run calls (World.boot boot)).storage.values →
      (run calls (World.boot boot)).storage.values.count t = 1 :=
    fun t ht => List.count_eq_one_of_mem hn ht
  refine ⟨(run calls (World.boot boot)).storage.values, ?_, length_createdRecords _ _, hlen,
    le_of_eq hlen.symm, ?_, ?_, ?_⟩
  · simp only [getHandler]
    rw [listHandler_fst]
    rfl
  · intro k t hk
    exact hcount t ((Storage.mem_values_iff _ t).2 ⟨k, hk⟩)
  · intro k t hk
    exact hcount t ((Storage.mem_values_iff _ t).2 ⟨k, run_get_mono calls _ hd0 k t hk⟩)
  · intro t ht
    apply hcount
    rw [hv]
    exact List.mem_append_left _ (List.mem_reverse.2 ht)

/-! ## Frame -/

/-- A successful create on a store in which the key `len + 1` is free keeps
every stored record under its key and adds exactly the key `len + 1`. -/
theorem createHandler_frame (now : Int) (r : Request) (st : World)
    (hs : (createHandler now ResponseWriter.fresh r st).1.status = some 200)
    (hfree : st.storage.get ((st.storage.len : Int) + 1) = none) :
    (∀ (k : Int) (t : Transaction), st.storage.get k = some t →
      (createHandler now ResponseWriter.fresh r st).2.storage.get k = some t) ∧
    (∀ k : Int,
      (createHandler now ResponseWriter.fresh r st).2.storage.get k ≠ none ↔
        (st.storage.get k ≠ none ∨ k = (st.storage.len : Int) + 1)) ∧
    (createHandler now ResponseWriter.fresh r st).2.storage.len = st.storage.len + 1 := by
  rcases createHandler_cases now r st with ⟨h4, _⟩ | ⟨p, _, _, _, hst⟩
  · rw [h4] at hs
    exact absurd hs (by decide)
  · rw [hst]
    refine ⟨?_, ?_, Storage.len_set_new _ _ _ hfree⟩
    · intro k t hk
      rw [Storage.get_set_ne]
      · exact hk
      · intro he
        rw [he, hfree] at hk
        cases hk
    · intro k
      by_cases hk : k = (st.storage.len : Int) + 1
      · subst hk
        simp [Storage.get_set_self]
      · rw [Storage.get_set_ne _ _ _ _ hk]
        simp [hk]

/-- C7: for every store state, `GET /health`, `GET /transactions`,
`GET /transactions/{id}` (whatever its outcome) and every `POST /transactions`
answered with a status other than 200 leave the store exactly as it was; and
in every store of the running program, that is every store reached from the
seeded one by serving requests, a successful create leaves every previously
stored record unchanged under its key and adds exactly one new key, the key
`len + 1`, which was not in use. -/
theorem store_mutated_only_by_create :
    (∀ (now : Int) (r : Request) (st : World),
      (getHandler now Route.health ResponseWriter.fresh r st).2.storage = st.storage ∧
      (getHandler now Route.list ResponseWriter.fresh r st).2.storage = st.storage ∧
      (getHandler now Route.get ResponseWriter.fresh r st).2.storage = st.storage ∧
      ((getHandler now Route.create ResponseWriter.fresh r st).1.status ≠ some 200 →
        (getHandler now Route.create ResponseWriter.fresh r st).2.storage = st.storage)) ∧
    (∀ (boot : Int) (calls : List Call) (now : Int) (r : Request),
      (getHandler now Route.create ResponseWriter.fresh r
          (run calls (World.boot boot))).1.status = some 200 →
      (∀ (k : Int) (t : Transaction),
        (run calls (World.boot boot)).storage.get k = some t →
        (getHandler now Route.create ResponseWriter.fresh r
          (run calls (World.boot boot))).2.storage.get k = some t) ∧
      (run calls (World.boot boot)).storage.get
        (((run calls (World.boot boot)).storage.len : Int) + 1) = none ∧
      (∀ k : Int,
        (getHandler now Route.create ResponseWriter.fresh r
          (run calls (World.boot boot))).2.storage.get k ≠ none ↔
          ((run calls (World.boot boot)).storage.get k ≠ none ∨
            k = ((run calls (World.boot boot)).storage.len : Int) + 1)) ∧
      (getHandler now Route.create ResponseWriter.fresh r
          (run calls (World.boot boot))).2.storage.len
        = (run calls (World.boot boot)).storage.len + 1) := by
  constructor
  · intro now r st
    refine ⟨rfl, rfl, getHandler_storage_of_ne_create _ _ _ _ _ (by decide), ?_⟩
    intro hs
    simp only [getHandler] at hs ⊢
    rcases createHandler_cases now r st with ⟨_, hst⟩ | ⟨p, _, _, hw, _⟩
    · exact hst
    · exact absurd (by rw [hw]; rfl) hs
  · intro boot calls now r hs
    have hd : (run calls (World.boot boot)).storage.Dense :=
      run_dense calls _ (storage_dense boot)
    have hfree := hd.next_free
    simp only [getHandler] at hs ⊢
    obtain ⟨h1, h2, h3⟩ := createHandler_frame now r _ hs hfree
    exact ⟨h1, hfree, h2, h3⟩

/-- The frame of C7 for a successful create after one earlier create: records
1, 2 and 3 stay and the store grows from three records to four. -/
theorem store_mutated_only_by_create_witness :
    (getHandler 9000 Route.create ResponseWriter.fresh (postRequest [] userPayload)
        (run earlierCalls (World.boot 5000))).1.status = some 200 ∧
    (run earlierCalls (World.boot 5000)).storage.len = 3 ∧
    (∀ (k : Int) (t : Transaction),
      (run earlierCalls (World.boot 5000)).storage.get k = some t →
      (getHandler 9000 Route.create ResponseWriter.fresh (postRequest [] userPayload)
        (run earlierCalls (World.boot 5000))).2.storage.get k = some t) ∧
    (getHandler 9000 Route.create ResponseWriter.fresh (postRequest [] userPayload)
        (run earlierCalls (World.boot 5000))).2.storage.len
      = (run earlierCalls (World.boot 5000)).storage.len + 1 :=
  ⟨by decide, by decide,
    (store_mutated_only_by_create.2 5000 earlierCalls 9000 (postRequest [] userPayload)
      (by decide)).1,
    (store_mutated_only_by_create.2 5000 earlierCalls 9000 (postRequest [] userPayload)
      (by decide)).2.2.2⟩

/-! ## Decimal numerals -/


theorem digitChar_spec (d : Nat) (h : d < 10) :
    '0' ≤ digitChar d ∧ digitChar d ≤ '9' ∧ (digitChar d).toNat - '0'.toNat = d := by
  interval_cases d <;> decide

theorem uintCutoff10_eq : uintCutoff10 = 1844674407370955162 := by decide

theorem parseUintLoop_digit (d m : Nat) (cs : List Char) (hd : d < 10)
    (hm : m * 10 + d < 2 ^ 64) :
    parseUintLoop (digitChar d :: cs) m = parseUintLoop cs (m * 10 + d) := by
  obtain ⟨h0, h9, hv⟩ := digitChar_spec d hd
  have hc : ¬ m ≥ uintCutoff10 := by rw [uintCutoff10_eq]; omega
  have h10 : m * 10 % 2 ^ 64 = m * 10 := Nat.mod_eq_of_lt (by omega)
  have h1 : (m * 10 + d) % 2 ^ 64 = m * 10 + d := Nat.mod_eq_of_lt hm
  have hr : ¬ (m * 10 + d < m * 10 ∨ m * 10 + d > 2 ^ 64 - 1) := by omega
  simp only [parseUintLoop, h0, h9, and_self, if_true, hv, hc, if_false, h10, h1, hr]

theorem parseUintLoop_append (xs ys : List Char) (acc m : Nat)
    (h : parseUintLoop xs acc = Except.ok m) :
    parseUintLoop (xs ++ ys) acc = parseUintLoop ys m := by
  induction xs generalizing acc with
  | nil =>
    simp only [parseUintLoop] at h
    cases h
    rfl
  | cons c cs ih =>
    simp only [List.cons_append, parseUintLoop] at h ⊢
    split_ifs at h ⊢ with h1 h2 h3
    exact ih _ h

theorem natDigits_ne_nil (fuel n : Nat) : natDigits (fuel + 1) n ≠ [] := by
  unfold natDigits
  split_ifs <;> simp

theorem natDigits_isDigit (fuel n : Nat) :
    ∀ c ∈ natDigits fuel n, '0' ≤ c ∧ c ≤ '9' := by
  induction fuel generalizing n with
  | zero => intro c hc; simp [natDigits] at hc
  | succ fuel ih =>
    intro c hc
    unfold natDigits at hc
    split_ifs at hc with h
    · rw [List.mem_singleton] at hc
      rw [hc]
      exact ⟨(digitChar_spec n h).1, (digitChar_spec n h).2.1⟩
    · rcases List.mem_append.1 hc with hc | hc
      · exact ih _ c hc
      · rw [List.mem_singleton] at hc
        rw [hc]
        have := digitChar_spec (n % 10) (Nat.mod_lt _ (by decide))
        exact ⟨this.1, this.2.1⟩

theorem parseUintLoop_natDigits (fuel n : Nat) (hf : n < fuel) (hn : n < 2 ^ 64) :
    parseUintLoop (natDigits fuel n) 0 = Except.ok n := by
  induction fuel generalizing n with
  | zero => omega
  | succ fuel ih =>
    unfold natDigits
    split_ifs with h
    · rw [parseUintLoop_digit n 0 [] h (by omega)]
      simp [parseUintLoop]
    · have h1 := ih (n / 10) (by omega) (by omega)
      rw [parseUintLoop_append _ _ _ _ h1,
        parseUintLoop_digit (n % 10) (n / 10) [] (Nat.mod_lt _ (by decide)) (by omega)]
      simp only [parseUintLoop]
      congr 1
      omega

theorem ParseUint_natDigits (n : Nat) (hn : n < 2 ^ 64) :
    ParseUint (natDigits (n + 1) n) = Except.ok n := by
  have h := parseUintLoop_natDigits (n + 1) n (by omega) hn
  unfold ParseUint
  split
  · next he => exact absurd he (natDigits_ne_nil n n)
  · exact h

theorem ParseInt_cons (c : Char) (cs : List Char) :
    ParseInt (String.mk (c :: cs)) =
      match ParseUint (if c = '+' ∨ c = '-' then cs else c :: cs) with
      | Except.error e => Except.error e
      | Except.ok un =>
        if ¬ c = '-' ∧ un ≥ 2 ^ 63 then Except.error NumError.ErrRange
        else if c = '-' ∧ un > 2 ^ 63 then Except.error NumError.ErrRange
        else if c = '-' then Except.ok (-(un : Int)) else Except.ok (un : Int) := rfl

/-- Parsing the decimal numeral of a 64-bit integer gives the integer back. -/
theorem ParseInt_FormatInt (i : Int) (h1 : -(2 ^ 63) ≤ i) (h2 : i < 2 ^ 63) :
    ParseInt (FormatInt i) = Except.ok i := by
  have hu := ParseUint_natDigits i.natAbs (by omega)
  by_cases hneg : i < 0
  · simp only [FormatInt, hneg, if_true]
    rw [ParseInt_cons]
    have hle : ¬ i.natAbs > 2 ^ 63 := by omega
    simp only [or_true, if_true, hu, not_true, false_and, if_false, true_and, hle]
    congr 1
    omega
  · simp only [FormatInt, hneg, if_false]
    cases hd : natDigits (i.natAbs + 1) i.natAbs with
    | nil => exact absurd hd (natDigits_ne_nil _ _)
    | cons c cs =>
      have hc := natDigits_isDigit _ _ c (by rw [hd]; exact List.mem_cons_self _ _)
      have hm : c ≠ '-' := by
        intro he; rw [he] at hc; exact absurd hc.1 (by decide)
      have hp : c ≠ '+' := by
        intro he; rw [he] at hc; exact absurd hc.1 (by decide)
      rw [hd] at hu
      have hlt : ¬ i.natAbs ≥ 2 ^ 63 := by omega
      rw [ParseInt_cons]
      simp only [hm, hp, or_self, if_false, hu, not_false_eq_true, true_and, hlt, false_and]
      congr 1
      omega

/-! ## Base-10 integers -/

theorem digitsValue_le (cs : List Char) (n m : Nat) (h : digitsValue cs n = some m) :
    n ≤ m := by
  induction cs generalizing n with
  | nil => simp only [digitsValue] at h; cases h; exact le_rfl
  | cons c cs ih =>
    simp only [digitsValue] at h
    split_ifs at h with hc
    have := ih _ h
    omega

theorem parseUintLoop_of_digitsValue (cs : List Char) (n m : Nat) (hn : n < 2 ^ 64)
    (h : digitsValue cs n = some m) :
    parseUintLoop cs n = if m < 2 ^ 64 then Except.ok m else Except.error NumError.ErrRange := by
  induction cs generalizing n with
  | nil =>
    simp only [digitsValue] at h
    cases h
    simp only [parseUintLoop]
    rw [if_pos hn]
  | cons c cs ih =>
    simp only [digitsValue] at h
    split_ifs at h with hc
    have hle := digitsValue_le _ _ _ h
    have hd : c.toNat - '0'.toNat ≤ 9 := by
      have h9 : c.toNat ≤ '9'.toNat := hc.2
      have : '9'.toNat = 57 := by decide
      have : '0'.toNat = 48 := by decide
      omega
    simp only [parseUintLoop, hc, and_self, if_true]
    by_cases hcut : n ≥ uintCutoff10
    · have : ¬ m < 2 ^ 64 := by rw [uintCutoff10_eq] at hcut; omega
      rw [if_pos hcut, if_neg this]
    · rw [uintCutoff10_eq] at hcut
      have h10 : n * 10 % 2 ^ 64 = n * 10 := Nat.mod_eq_of_lt (by omega)
      by_cases hov : n * 10 + (c.toNat - '0'.toNat) < 2 ^ 64
      · have h1 : (n * 10 + (c.toNat - '0'.toNat)) % 2 ^ 64
            = n * 10 + (c.toNat - '0'.toNat) := Nat.mod_eq_of_lt hov
        have hr : ¬ (n * 10 + (c.toNat - '0'.toNat) < n * 10 ∨
            n * 10 + (c.toNat - '0'.toNat) > 2 ^ 64 - 1) := by omega
        have hcut1 : ¬ n ≥ uintCutoff10 := by rw [uintCutoff10_eq]; exact hcut
        simp only [hcut1, if_false, h10, h1, hr]
        exact ih _ hov h
      · have h1 : (n * 10 + (c.toNat - '0'.toNat)) % 2 ^ 64
            = n * 10 + (c.toNat - '0'.toNat) - 2 ^ 64 := by
          rw [Nat.mod_eq_sub_mod (by omega)]
          exact Nat.mod_eq_of_lt (by omega)
        have hr : n * 10 + (c.toNat - '0'.toNat) - 2 ^ 64 < n * 10 ∨
            n * 10 + (c.toNat - '0'.toNat) - 2 ^ 64 > 2 ^ 64 - 1 := by omega
        have hcut1 : ¬ n ≥ uintCutoff10 := by rw [uintCutoff10_eq]; exact hcut
        have : ¬ m < 2 ^ 64 := by omega
        simp only [hcut1, if_false, h10, h1, hr, if_true, this]

theorem parseUintLoop_of_digitsValue_none (cs : List Char) (n : Nat) (hn : n < 2 ^ 64)
    (h : digitsValue cs n = none) : ∃ e, parseUintLoop cs n = Except.error e := by
  induction cs generalizing n with
  | nil => simp [digitsValue] at h
  | cons c cs ih =>
    simp only [digitsValue] at h
    by_cases hc : '0' ≤ c ∧ c ≤ '9'
    · simp only [hc, and_self, if_true] at h
      simp only [parseUintLoop, hc, and_self, if_true]
      by_cases hcut : n ≥ uintCutoff10
      · exact ⟨NumError.ErrRange, by rw [if_pos hcut]⟩
      · simp only [hcut, if_false]
        split_ifs with hr
        · exact ⟨_, rfl⟩
        · have hcut1 := hcut
          rw [uintCutoff10_eq] at hcut1
          have h10 : n * 10 % 2 ^ 64 = n * 10 := Nat.mod_eq_of_lt (by omega)
          rw [h10] at hr ⊢
          have hov : n * 10 + (c.toNat - '0'.toNat) < 2 ^ 64 := by
            by_contra hge
            have hd : c.toNat - '0'.toNat ≤ 9 := by
              have h9 : c.toNat ≤ '9'.toNat := hc.2
              have : '9'.toNat = 57 := by decide
              have : '0'.toNat = 48 := by decide
              omega
            have h1 : (n * 10 + (c.toNat - '0'.toNat)) % 2 ^ 64
                = n * 10 + (c.toNat - '0'.toNat) - 2 ^ 64 := by
              rw [Nat.mod_eq_sub_mod (by omega)]
              exact Nat.mod_eq_of_lt (by omega)
            rw [h1] at hr
            omega
          rw [Nat.mod_eq_of_lt hov]
          exact ih _ hov h
    · exact ⟨NumError.ErrSyntax, by simp [parseUintLoop, hc]⟩

/-- `ParseUint` on a non-empty string, by the value of its digits. -/
theorem ParseUint_cases (c : Char) (cs : List Char) :
    (digitsValue (c :: cs) 0 = none ∧ ∃ e, ParseUint (c :: cs) = Except.error e) ∨
    (∃ v, digitsValue (c :: cs) 0 = some v ∧ v < 2 ^ 64 ∧ ParseUint (c :: cs) = Except.ok v) ∨
    (∃ v, digitsValue (c :: cs) 0 = some v ∧ 2 ^ 64 ≤ v ∧
      ParseUint (c :: cs) = Except.error NumError.ErrRange) := by
  have hP : ParseUint (c :: cs) = parseUintLoop (c :: cs) 0 := rfl
  cases hv : digitsValue (c :: cs) 0 with
  | none =>
    left
    rw [hP]
    exact ⟨rfl, parseUintLoop_of_digitsValue_none _ 0 (by norm_num) hv⟩
  | some v =>
    right
    have h := parseUintLoop_of_digitsValue _ 0 v (by norm_num) hv
    by_cases hlt : v < 2 ^ 64
    · left
      rw [if_pos hlt] at h
      exact ⟨v, rfl, hlt, by rw [hP, h]⟩
    · right
      rw [if_neg hlt] at h
      exact ⟨v, rfl, by omega, by rw [hP, h]⟩

/-- `strconv.ParseInt(s, 10, 64)` succeeds exactly on the base-10 signed
64-bit numerals, with their value. -/
theorem ParseInt_toOption (s : String) : (ParseInt s).toOption = decimalInt64 s := by
  unfold ParseInt decimalInt64
  cases hs : s.toList with
  | nil => rfl
  | cons c cs =>
    simp only []
    cases hd : (if c = '+' ∨ c = '-' then cs else c :: cs) with
    | nil => rfl
    | cons d ds =>
      simp only []
      rcases ParseUint_cases d ds with ⟨hv, e, he⟩ | ⟨v, hv, hlt, he⟩ | ⟨v, hv, hge, he⟩
      · rw [hv, he]; rfl
      · rw [hv, he]
        simp only []
        by_cases hneg : c = '-'
        · simp only [hneg, not_true, false_and, if_false, true_and, if_true]
          split_ifs <;> first | rfl | (exfalso; omega)
        · simp only [hneg, not_false_eq_true, true_and, false_and, if_false]
          split_ifs <;> first | rfl | (exfalso; omega)
      · rw [hv, he]
        simp only []
        by_cases hneg : c = '-'
        · simp only [hneg, if_true]
          split_ifs <;> first | rfl | (exfalso; omega)
        · simp only [hneg, if_false]
          split_ifs <;> first | rfl | (exfalso; omega)

theorem ParseInt_eq_ok_iff (s : String) (k : Int) :
    ParseInt s = Except.ok k ↔ decimalInt64 s = some k := by
  rw [← ParseInt_toOption]
  cases ParseInt s with
  | error e => simp [Except.toOption]
  | ok j => simp [Except.toOption]

theorem ParseInt_error_iff (s : String) :
    (∃ e, ParseInt s = Except.error e) ↔ decimalInt64 s = none := by
  rw [← ParseInt_toOption]
  cases ParseInt s with
  | error e => simp [Except.toOption]
  | ok j => simp [Except.toOption]

/-! ## The get handler -/

/-- C5: for every store and every path segment `id`, `GET /transactions/{id}`
has exactly one of three outcomes: 400 "invalid transaction id" when `id` does
not parse as a base-10 signed 64-bit integer, 404 "transaction not found" when
it parses to a `k` that is not a key of the store, and 200 with the record
stored under `k` otherwise; the status tells the three apart.  On the seeded
store, `abc` gives the first, `999` the second, and `2` the third with the
record "Anonymous buy T-Shirts" (UserID 0, Amount 200000). -/
theorem get_by_id_outcomes :
    (∀ (now : Int) (r : Request) (st : World),
      (decimalInt64 (r.PathValue "id") = none ∧
        (getHandler now Route.get ResponseWriter.fresh r st).1
          = failed 400 "invalid transaction id") ∨
      (∃ k, decimalInt64 (r.PathValue "id") = some k ∧ st.storage.get k = none ∧
        (getHandler now Route.get ResponseWriter.fresh r st).1
          = failed 404 "transaction not found") ∨
      (∃ k t, decimalInt64 (r.PathValue "id") = some k ∧ st.storage.get k = some t ∧
        (getHandler now Route.get ResponseWriter.fresh r st).1
          = succeeded (Data.trx t))) ∧
    (∀ (code code1 : Nat) (msg msg1 : String) (d : Data),
      (failed code msg = failed code1 msg1 → code = code1) ∧
      (failed code msg = succeeded d → code = 200)) ∧
    (∀ (now boot : Int),
      decimalInt64 "abc" = none ∧ decimalInt64 "999" = some 999 ∧
      (World.boot boot).storage.get 999 = none ∧ decimalInt64 "2" = some 2 ∧
      (getHandler now Route.get ResponseWriter.fresh (getRequest "abc") (World.boot boot)).1
        = failed 400 "invalid transaction id" ∧
      (getHandler now Route.get ResponseWriter.fresh (getRequest "999") (World.boot boot)).1
        = failed 404 "transaction not found" ∧
      (getHandler now Route.get ResponseWriter.fresh (getRequest "2") (World.boot boot)).1
        = succeeded (Data.trx
            (Transaction.mk 2 0 "Anonymous buy T-Shirts"
              ["T-Shirt Bugs Bunny White Colour", "T-Shirt Tweety Sun Colour"]
              200000 (boot - 1800)))) := by
  refine ⟨?_, ?_, ?_⟩
  · intro now r st
    simp only [getHandler]
    cases hp : ParseInt (r.PathValue "id") with
    | error e =>
      exact Or.inl ⟨(ParseInt_error_iff _).1 ⟨e, hp⟩,
        by rw [getByIdHandler_invalid _ r st e hp]; rfl⟩
    | ok k =>
      cases hg : st.storage.get k with
      | none =>
        exact Or.inr (Or.inl ⟨k, (ParseInt_eq_ok_iff _ k).1 hp, hg,
          by rw [getByIdHandler_missing _ r st k hp hg]; rfl⟩)
      | some t =>
        exact Or.inr (Or.inr ⟨k, t, (ParseInt_eq_ok_iff _ k).1 hp, hg,
          by rw [getByIdHandler_found _ r st k t hp hg]; rfl⟩)
  · intro code code1 msg msg1 d
    constructor
    · intro h
      have h1 := congrArg ResponseWriter.status h
      simpa [failed] using h1
    · intro h
      have h1 := congrArg ResponseWriter.status h
      simpa [failed, succeeded] using h1
  · intro now boot
    have e1 : ParseInt ((getRequest "abc").PathValue "id")
        = Except.error NumError.ErrSyntax := by decide
    have e2 : ParseInt ((getRequest "999").PathValue "id") = Except.ok 999 := by decide
    have e3 : ParseInt ((getRequest "2").PathValue "id") = Except.ok 2 := by decide
    refine ⟨by decide, by decide, rfl, by decide, ?_, ?_, ?_⟩
    · simp only [getHandler]
      rw [getByIdHandler_invalid _ _ _ _ e1]; rfl
    · simp only [getHandler]
      have g : (World.boot boot).storage.get 999 = none := rfl
      rw [getByIdHandler_missing _ _ _ _ e2 g]; rfl
    · simp only [getHandler]
      have g : (World.boot boot).storage.get 2 = some
          (Transaction.mk 2 0 "Anonymous buy T-Shirts"
              ["T-Shirt Bugs Bunny White Colour", "T-Shirt Tweety Sun Colour"]
              200000 (boot - 1800)) := rfl
      rw [getByIdHandler_found _ _ _ 2 _ e3 g]; rfl

/-! ## Create, then get -/

/-- C10: in every store reached from the seeded store (holding fewer than
`2 ^ 63 - 1` records, as every Go map does), when a `POST /transactions` is
answered 200 with the record `rec`, a following `GET /transactions/{id}` with
`id` the base-10 numeral of `rec.ID` is answered 200 with data `rec`, and a
`GET /transactions/{k}` for a key `k` that existed before the create is
answered 200 with the same record as before the create. -/
theorem create_then_get (boot : Int) (calls : List Call) (now now2 : Int) (r : Request)
    (rec : Transaction)
    (hsize : ((run calls (World.boot boot)).storage.len : Int) + 1 < 2 ^ 63)
    (hcreate :
      (getHandler now Route.create ResponseWriter.fresh r (run calls (World.boot boot))).1
        = { header := [("Content-Type", "application/json")]
            status := some 200
            body := [{ Ok := true, Data := Data.trx rec, ErrorMessage := "" }] }) :
    (∀ r2 : Request, r2.PathValue "id" = FormatInt rec.ID →
      (getHandler now2 Route.get ResponseWriter.fresh r2
          (getHandler now Route.create ResponseWriter.fresh r
            (run calls (World.boot boot))).2).1
        = { header := [("Content-Type", "application/json")]
            status := some 200
            body := [{ Ok := true, Data := Data.trx rec, ErrorMessage := "" }] }) ∧
    (∀ (r2 : Request) (k : Int), ParseInt (r2.PathValue "id") = Except.ok k →
      (run calls (World.boot boot)).storage.get k ≠ none →
      ∃ t : Transaction,
        (getHandler now2 Route.get ResponseWriter.fresh r2 (run calls (World.boot boot))).1
          = { header := [("Content-Type", "application/json")]
              status := some 200
              body := [{ Ok := true, Data := Data.trx t, ErrorMessage := "" }] } ∧
        (getHandler now2 Route.get ResponseWriter.fresh r2
            (getHandler now Route.create ResponseWriter.fresh r
              (run calls (World.boot boot))).2).1
          = { header := [("Content-Type", "application/json")]
              status := some 200
              body := [{ Ok := true, Data := Data.trx t, ErrorMessage := "" }] }) := by
  have hd : (run calls (World.boot boot)).storage.Dense :=
    run_dense calls _ (storage_dense boot)
  simp only [getHandler] at hcreate ⊢
  rcases createHandler_cases now r (run calls (World.boot boot)) with
    ⟨h4, _⟩ | ⟨p, _, _, hw, hst⟩
  · rw [hcreate] at h4
    simp at h4
  · have hrec : rec = newRecord (run calls (World.boot boot)).storage p now := by
      rw [hw] at hcreate
      have hb := congrArg dataOf hcreate
      simp only [dataOf, succeeded] at hb
      exact (Data.trx.inj hb).symm
    have hid : rec.ID = ((run calls (World.boot boot)).storage.len : Int) + 1 := by
      rw [hrec]; rfl
    constructor
    · intro r2 hr2
      have hp : ParseInt (r2.PathValue "id") = Except.ok rec.ID := by
        rw [hr2]
        exact ParseInt_FormatInt _ (by rw [hid]; omega) (by rw [hid]; exact hsize)
      have hg : (createHandler now ResponseWriter.fresh r
          (run calls (World.boot boot))).2.storage.get rec.ID = some rec := by
        rw [hst, hid, hrec]
        exact Storage.get_set_self _ _ _
      rw [getByIdHandler_found _ r2 _ rec.ID rec hp hg]
      rfl
    · intro r2 k hp hk
      cases hg : (run calls (World.boot boot)).storage.get k with
      | none => exact absurd hg hk
      | some t =>
        have hne : k ≠ ((run calls (World.boot boot)).storage.len : Int) + 1 := by
          intro he
          rw [he, hd.next_free] at hg
          cases hg
        have hg2 : (createHandler now ResponseWriter.fresh r
            (run calls (World.boot boot))).2.storage.get k = some t := by
          rw [hst, Storage.get_set_ne _ _ _ _ hne]
          exact hg
        refine ⟨t, ?_, ?_⟩
        · rw [getByIdHandler_found _ r2 _ k t hp hg]; rfl
        · rw [getByIdHandler_found _ r2 _ k t hp hg2]; rfl

/-- The round trip of C10 after one earlier create: the record created with ID 4
is returned by `GET /transactions/4`. -/
theorem create_then_get_witness :
    ((run earlierCalls (World.boot 5000)).storage.len : Int) + 1 < 2 ^ 63 ∧
    (getHandler 9000 Route.create ResponseWriter.fresh (postRequest [] userPayload)
        (run earlierCalls (World.boot 5000))).1
      = { header := [("Content-Type", "application/json")]
          status := some 200
          body := [{ Ok := true
                     Data := Data.trx (Transaction.mk 4 5 "Buy a mug" ["Mug"] 15000 9000)
                     ErrorMessage := "" }] } ∧
    (getRequest "4").PathValue "id"
      = FormatInt (Transaction.mk 4 5 "Buy a mug" ["Mug"] 15000 9000).ID ∧
    (getHandler 9100 Route.get ResponseWriter.fresh (getRequest "4")
        (getHandler 9000 Route.create ResponseWriter.fresh (postRequest [] userPayload)
          (run earlierCalls (World.boot 5000))).2).1
      = { header := [("Content-Type", "application/json")]
          status := some 200
          body := [{ Ok := true
                     Data := Data.trx (Transaction.mk 4 5 "Buy a mug" ["Mug"] 15000 9000)
                     ErrorMessage := "" }] } :=
  ⟨by decide, by decide, by decide,
    (create_then_get 5000 earlierCalls 9000 9100 (postRequest [] userPayload)
      (Transaction.mk 4 5 "Buy a mug" ["Mug"] 15000 9000) (by decide) (by decide)).1
      (getRequest "4") (by decide)⟩

/-! ## Sample evaluations -/

theorem ParseInt_samples :
    ParseInt "abc" = Except.error NumError.ErrSyntax ∧
    ParseInt "" = Except.error NumError.ErrSyntax ∧
    ParseInt "-" = Except.error NumError.ErrSyntax ∧
    ParseInt "12a" = Except.error NumError.ErrSyntax ∧
    ParseInt "1_000" = Except.error NumError.ErrSyntax ∧
    ParseInt "999" = Except.ok 999 ∧
    ParseInt "+12" = Except.ok 12 ∧
    ParseInt "007" = Except.ok 7 ∧
    ParseInt "-9223372036854775808" = Except.ok (-9223372036854775808) ∧
    ParseInt "9223372036854775807" = Except.ok 9223372036854775807 ∧
    ParseInt "9223372036854775808" = Except.error NumError.ErrRange ∧
    ParseInt "-9223372036854775809" = Except.error NumError.ErrRange ∧
    ParseInt "18446744073709551616" = Except.error NumError.ErrRange := by
  decide

/-- `FailResponse` outside the codes of this program: a code `WriteHeader`
panics on leaves only the header map set, a 1xx code other than 101 is sent
as an informational line before the final status 200, and 101, 204 and 304
take no body. -/
theorem FailResponse_samples :
    FailResponse ResponseWriter.fresh "boom" 0
      = { header := [("Content-Type", "application/json")], status := none, body := [] } ∧
    FailResponse ResponseWriter.fresh "boom" (-1)
      = { header := [("Content-Type", "application/json")], status := none, body := [] } ∧
    FailResponse ResponseWriter.fresh "boom" 1000
      = { header := [("Content-Type", "application/json")], status := none, body := [] } ∧
    FailResponse ResponseWriter.fresh "boom" 100
      = { header := [("Content-Type", "application/json")], status := some 200,
          body := [{ Ok := false, Data := Data.null, ErrorMessage := "boom" }],
          informational := [100] } ∧
    FailResponse ResponseWriter.fresh "boom" 101
      = { header := [("Content-Type", "application/json")], status := some 101, body := [] } ∧
    FailResponse ResponseWriter.fresh "boom" 204
      = { header := [("Content-Type", "application/json")], status := some 204, body := [] } ∧
    FailResponse ResponseWriter.fresh "boom" 304
      = { header := [("Content-Type", "application/json")], status := some 304, body := [] } ∧
    FailResponse ResponseWriter.fresh "boom" 400
      = { header := [("Content-Type", "application/json")], status := some 400,
          body := [{ Ok := false, Data := Data.null, ErrorMessage := "boom" }] } := by
  decide

theorem ParseBool_samples :
    ParseBool "true" = Except.ok true ∧ ParseBool "1" = Except.ok true ∧
    ParseBool "False" = Except.ok false ∧
    ParseBool "" = Except.error NumError.ErrSyntax ∧
    ParseBool "yes" = Except.error NumError.ErrSyntax ∧
    ParseBool "tRuE" = Except.error NumError.ErrSyntax := by
  decide

theorem FormatInt_samples :
    FormatInt 0 = "0" ∧ FormatInt 3 = "3" ∧ FormatInt 1203 = "1203" ∧
    FormatInt (-45) = "-45" := by
  decide

theorem storage_samples :
    (storage 5000).len = 2 ∧
    (storage 5000).get 1 = some (Transaction.mk 1 1 "Buy iPhone 13"
      ["iPhone 13", "Clear Case"] 10000000 1400) ∧
    (storage 5000).get 2 = some (Transaction.mk 2 0 "Anonymous buy T-Shirts"
      ["T-Shirt Bugs Bunny White Colour", "T-Shirt Tweety Sun Colour"] 200000 3200) ∧
    (storage 5000).get 3 = none := by
  decide

end LoggingAndMonitoring
